import Mathlib

/-!
Verification development for the coldy order-processing core.

The Go services are shallowly embedded as executable Lean definitions:
SQL updates become pure functions on row structures, database CHECK
constraints and column ranges become explicit failure conditions, in-Go
`int64` arithmetic wraps modulo 2^64, transactions become `Except`-valued
functions whose error result leaves the caller's state unchanged, and
long-running workers become folds over the batch they process.
-/

namespace Coldy

/-! ## Inventory service (services/inventory)

One `inventory` row per product, as in the inventory migration:
`available_quantity INTEGER CHECK (available_quantity >= 0)`,
`reserved_quantity INTEGER CHECK (reserved_quantity >= 0)`,
`total_quantity INTEGER`, `version INTEGER DEFAULT 1`.
Quantities are Postgres `INTEGER` (int32); an update whose result leaves
the int32 range or violates a CHECK constraint raises an error and aborts
the transaction (Postgres does not wrap integer arithmetic). -/

structure Inventory where
  productID : String
  availableQuantity : Int
  reservedQuantity : Int
  totalQuantity : Int
  version : Int
  deriving Repr, DecidableEq

/-- Lower bound of Postgres `INTEGER`. -/
def int32Min : Int := -(2 ^ 31)

/-- Upper bound (exclusive) of Postgres `INTEGER`. -/
def int32Max : Int := 2 ^ 31

/-- A value representable in a Postgres `INTEGER` column. -/
def fitsInt32 (x : Int) : Bool := int32Min ≤ x && x < int32Max

/-- Constraints the database enforces on an `inventory` row when it is
written: the two CHECK constraints of the migration plus the int32 ranges
of the four integer columns. A row update whose result violates any of
them raises an error. -/
def rowOk (r : Inventory) : Bool :=
  0 ≤ r.availableQuantity && 0 ≤ r.reservedQuantity &&
  fitsInt32 r.availableQuantity && fitsInt32 r.reservedQuantity &&
  fitsInt32 r.totalQuantity && fitsInt32 r.version

/-- The conservation invariant of the spec for one product row. -/
def invInvariant (r : Inventory) : Prop :=
  r.availableQuantity + r.reservedQuantity = r.totalQuantity ∧
  0 ≤ r.availableQuantity ∧ 0 ≤ r.reservedQuantity

instance (r : Inventory) : Decidable (invInvariant r) := by
  unfold invInvariant; infer_instance

/-- The versioned conditional UPDATE issued by `ReserveStock`:
`SET available = available - q, reserved = reserved + q, version = version + 1
WHERE product_id = ? AND version = ?`. A version mismatch affects zero rows,
which the caller turns into an inventory-conflict error. -/
def reserveUpdate (q expectedVersion : Int) (r : Inventory) : Except String Inventory :=
  if r.version = expectedVersion then
    let r' : Inventory :=
      { r with
        availableQuantity := r.availableQuantity - q
        reservedQuantity := r.reservedQuantity + q
        version := r.version + 1 }
    if rowOk r' then .ok r' else .error "check constraint violation"
  else .error ("inventory conflict for product " ++ r.productID ++ " (concurrent update)")

/-- One item of `ReserveStock` on the row it touches: the
`SELECT ... FOR UPDATE` read, the `available < quantity` guard, and the
versioned conditional update, exactly as in `InventoryService.ReserveStock`. -/
def reserveRowStep (q : Int) (r : Inventory) : Except String Inventory :=
  if r.availableQuantity < q then
    .error ("insufficient stock for product " ++ r.productID)
  else reserveUpdate q r.version r

/-- The inventory UPDATE of `ReleaseStock`:
`SET available = available + q, reserved = reserved - q, version = version + 1`. -/
def releaseRowUpdate (q : Int) (r : Inventory) : Except String Inventory :=
  let r' : Inventory :=
    { r with
      availableQuantity := r.availableQuantity + q
      reservedQuantity := r.reservedQuantity - q
      version := r.version + 1 }
  if rowOk r' then .ok r' else .error "check constraint violation"

/-- The inventory UPDATE of `CommitStock`:
`SET reserved = reserved - q, total = total - q, version = version + 1`. -/
def commitRowUpdate (q : Int) (r : Inventory) : Except String Inventory :=
  let r' : Inventory :=
    { r with
      reservedQuantity := r.reservedQuantity - q
      totalQuantity := r.totalQuantity - q
      version := r.version + 1 }
  if rowOk r' then .ok r' else .error "check constraint violation"

/-- The UPDATE of `AdjustInventory` taken on conflict (row already present):
`SET available = available + delta, total = total + delta, version = version + 1`. -/
def adjustRowUpdate (delta : Int) (r : Inventory) : Except String Inventory :=
  let r' : Inventory :=
    { r with
      availableQuantity := r.availableQuantity + delta
      totalQuantity := r.totalQuantity + delta
      version := r.version + 1 }
  if rowOk r' then .ok r' else .error "check constraint violation"

/-- The INSERT of `AdjustInventory` when the row is absent:
`INSERT INTO inventory (product_id, available_quantity, total_quantity)
VALUES ($1, $2, $2)`; `reserved_quantity` defaults to 0 and `version` to 1. -/
def adjustInsertRow (pid : String) (delta : Int) : Except String Inventory :=
  let r' : Inventory :=
    { productID := pid
      availableQuantity := delta
      reservedQuantity := 0
      totalQuantity := delta
      version := 1 }
  if rowOk r' then .ok r' else .error "check constraint violation"

/-- The per-reservation inventory UPDATE of the server-side reaper
`cleanup_expired_reservations()`:
`SET available = available + q, reserved = reserved - q, version = version + 1`. -/
def reapRowUpdate (q : Int) (r : Inventory) : Except String Inventory :=
  let r' : Inventory :=
    { r with
      availableQuantity := r.availableQuantity + q
      reservedQuantity := r.reservedQuantity - q
      version := r.version + 1 }
  if rowOk r' then .ok r' else .error "check constraint violation"

/-- The inventory mutations of the inventory service, one constructor per
operation that touches an existing product row. -/
inductive InvOp where
  | reserve (q : Int)
  | release (q : Int)
  | commit (q : Int)
  | adjust (delta : Int)
  | reap (q : Int)
  deriving Repr, DecidableEq

/-- Dispatch an operation to the row mutation it performs. -/
def applyInvOp : InvOp → Inventory → Except String Inventory
  | .reserve q, r => reserveRowStep q r
  | .release q, r => releaseRowUpdate q r
  | .commit q, r => commitRowUpdate q r
  | .adjust d, r => adjustRowUpdate d r
  | .reap q, r => reapRowUpdate q r

end Coldy

namespace Coldy

/-- C1: Inventory conservation. For every product row, every successful
inventory mutation (the per-item step of ReserveStock, the inventory
updates of CommitStock, ReleaseStock, AdjustInventory on an existing row,
and the expired-reservation reaper) preserves
`available + reserved = total ∧ available ≥ 0 ∧ reserved ≥ 0` given it held
before, and strictly increases the row's version; and the row freshly
inserted by AdjustInventory satisfies the invariant as well. -/
theorem inventory_conservation_C1 (op : InvOp) (r r' : Inventory)
    (hInv : invInvariant r) (h : applyInvOp op r = .ok r') :
    (invInvariant r' ∧ r.version < r'.version) ∧
    (∀ pid delta r₀, adjustInsertRow pid delta = .ok r₀ → invInvariant r₀) := by
  constructor
  · obtain ⟨hsum, ha, hr⟩ := hInv
    cases op with
    | reserve q =>
      simp only [applyInvOp, reserveRowStep, reserveUpdate, rowOk, fitsInt32,
        int32Min, int32Max, Bool.and_eq_true, decide_eq_true_eq] at h
      split at h
      · exact Except.noConfusion h
      · split at h
        · split at h
          · injection h with h
            subst h
            refine ⟨⟨?_, ?_, ?_⟩, ?_⟩ <;> dsimp <;> omega
          · exact Except.noConfusion h
        · exact Except.noConfusion h
    | release q =>
      simp only [applyInvOp, releaseRowUpdate, rowOk, fitsInt32,
        int32Min, int32Max, Bool.and_eq_true, decide_eq_true_eq] at h
      split at h
      · injection h with h
        subst h
        refine ⟨⟨?_, ?_, ?_⟩, ?_⟩ <;> dsimp <;> omega
      · exact Except.noConfusion h
    | commit q =>
      simp only [applyInvOp, commitRowUpdate, rowOk, fitsInt32,
        int32Min, int32Max, Bool.and_eq_true, decide_eq_true_eq] at h
      split at h
      · injection h with h
        subst h
        refine ⟨⟨?_, ?_, ?_⟩, ?_⟩ <;> dsimp <;> omega
      · exact Except.noConfusion h
    | adjust delta =>
      simp only [applyInvOp, adjustRowUpdate, rowOk, fitsInt32,
        int32Min, int32Max, Bool.and_eq_true, decide_eq_true_eq] at h
      split at h
      · injection h with h
        subst h
        refine ⟨⟨?_, ?_, ?_⟩, ?_⟩ <;> dsimp <;> omega
      · exact Except.noConfusion h
    | reap q =>
      simp only [applyInvOp, reapRowUpdate, rowOk, fitsInt32,
        int32Min, int32Max, Bool.and_eq_true, decide_eq_true_eq] at h
      split at h
      · injection h with h
        subst h
        refine ⟨⟨?_, ?_, ?_⟩, ?_⟩ <;> dsimp <;> omega
      · exact Except.noConfusion h
  · intro pid delta r₀ h₀
    simp only [adjustInsertRow, rowOk, fitsInt32, int32Min, int32Max,
      Bool.and_eq_true, decide_eq_true_eq] at h₀
    split at h₀
    · injection h₀ with h₀
      subst h₀
      refine ⟨?_, ?_, ?_⟩ <;> dsimp <;> omega
    · exact Except.noConfusion h₀

/-- C1 witness: a concrete reserve of 2 units on a row holding 5 available,
1 reserved, 6 total at version 3 preserves the invariant and bumps the
version. -/
theorem inventory_conservation_C1_witness :
    invInvariant ⟨"p1", 5, 1, 6, 3⟩ ∧
    applyInvOp (.reserve 2) ⟨"p1", 5, 1, 6, 3⟩ = .ok ⟨"p1", 3, 3, 6, 4⟩ ∧
    (invInvariant (⟨"p1", 3, 3, 6, 4⟩ : Inventory) ∧ (3 : Int) < 4) :=
  ⟨by decide, by rfl,
    (inventory_conservation_C1 (.reserve 2) ⟨"p1", 5, 1, 6, 3⟩ ⟨"p1", 3, 3, 6, 4⟩
      (by decide) (by rfl)).1⟩

/-! ### ReserveStock over the whole inventory state

The transaction of `InventoryService.ReserveStock`: one reserve step and
one `reservations` INSERT per requested item, all-or-nothing (an error
rolls the transaction back, so the caller keeps the original state).
The `reservations` table of the migration declares
`reservation_id VARCHAR(255) UNIQUE NOT NULL`, so an INSERT whose
`reservation_id` is already present — also one inserted earlier in the same
transaction — raises a unique violation. -/

structure ReservationRow where
  rid : String
  productID : String
  quantity : Int
  status : String
  expiresAt : Int
  deriving Repr, DecidableEq

structure ReservationItem where
  productID : String
  quantity : Int
  deriving Repr, DecidableEq

structure InvState where
  rows : List Inventory
  reservations : List ReservationRow
  deriving Repr, DecidableEq

/-- The statement `INSERT INTO reservations (id, reservation_id, product_id, quantity,
status, expires_at) VALUES (uuid, $rid, $pid, $q, 'active', $expiresAt)`
under the table's UNIQUE constraint on `reservation_id`. -/
def insertReservation (st : InvState) (rid pid : String) (q expiresAt : Int) :
    Except String InvState :=
  if st.reservations.any (fun rr => rr.rid == rid) then
    .error "duplicate key value violates unique constraint on reservation_id"
  else
    .ok { st with
          reservations := st.reservations ++ [⟨rid, pid, q, "active", expiresAt⟩] }

/-- The body of the `for _, item := range items` loop of `ReserveStock`:
load the row (error when absent), check availability, conditional update,
insert the reservation row. -/
def reserveOneItem (rid : String) (expiresAt : Int) (st : InvState)
    (item : ReservationItem) : Except String InvState :=
  match st.rows.find? (fun r => r.productID == item.productID) with
  | none => .error ("product " ++ item.productID ++ " not found in inventory")
  | some inv =>
    if inv.availableQuantity < item.quantity then
      .error ("insufficient stock for product " ++ item.productID)
    else
      match reserveUpdate item.quantity inv.version inv with
      | .error e => .error e
      | .ok inv' =>
        insertReservation
          { st with
            rows := st.rows.map fun r =>
              if r.productID == item.productID then inv' else r }
          rid item.productID item.quantity expiresAt

/-- Embeds `InventoryService.ReserveStock`: TTL defaulting, expiry computation and
the per-item transaction loop. An `.error` result means the transaction
rolled back and the store is unchanged. -/
def reserveStock (rid : String) (items : List ReservationItem)
    (ttlSeconds now : Int) (st : InvState) : Except String InvState :=
  let ttl := if ttlSeconds ≤ 0 then 900 else ttlSeconds
  let expiresAt := now + ttl
  items.foldlM (reserveOneItem rid expiresAt) st

/-- The two-product store used to exhibit the multi-item failure. -/
def twoProductState : InvState :=
  ⟨[⟨"p1", 5, 0, 5, 1⟩, ⟨"p2", 7, 0, 7, 1⟩], []⟩

/-- C4: failing input for the all-or-nothing multi-item reserve. In the
store `twoProductState` both requested items have ample available stock
and no reservation exists, yet
`ReserveStock("R1", [{p1,1},{p2,1}])` fails with a unique violation: the
`reservations` table's UNIQUE constraint on `reservation_id` rejects the
second per-item INSERT of the same reservation id, so the spec's "insert a
Reservation row per item and commit" branch is unreachable for two or more
items, while a single-item reserve of the same id succeeds. -/
theorem reserve_multi_item_C4 :
    (∀ it ∈ [ReservationItem.mk "p1" 1, ReservationItem.mk "p2" 1],
        ∃ r ∈ twoProductState.rows,
          r.productID = it.productID ∧ it.quantity ≤ r.availableQuantity) ∧
    twoProductState.reservations = [] ∧
    reserveStock "R1" [⟨"p1", 1⟩, ⟨"p2", 1⟩] 900 0 twoProductState =
      .error "duplicate key value violates unique constraint on reservation_id" ∧
    reserveStock "R1" [⟨"p1", 1⟩] 900 0 twoProductState =
      .ok ⟨[⟨"p1", 4, 1, 5, 2⟩, ⟨"p2", 7, 0, 7, 1⟩],
           [⟨"R1", "p1", 1, "active", 900⟩]⟩ := by
  refine ⟨?_, rfl, by rfl, by rfl⟩
  decide

/-! ## Circuit breaker (pkg/circuitbreaker)

Time is an abstract monotone clock in abstract units; every call carries
the clock value at which it happens. The provider call of one `Execute`
invocation is summarised by its outcome: it returns nil, returns an error,
or runs past the per-call timeout (in which case the timeout context fires
and `Execute` records a failure). The `failures` counter is a Go `uint32`
and wraps modulo 2^32. -/

inductive CBState where
  | closed
  | halfOpen
  | opened
  deriving Repr, DecidableEq

structure CBConfig where
  maxFailures : Nat
  timeout : Nat
  resetTimeout : Nat
  deriving Repr, DecidableEq

structure CircuitBreaker where
  config : CBConfig
  state : CBState
  failures : Nat
  lastAttempt : Nat
  deriving Repr, DecidableEq

/-- Embeds `circuitbreaker.New`: closed, zero failures, `lastAttempt = time.Now()`. -/
def newBreaker (cfg : CBConfig) (now : Nat) : CircuitBreaker :=
  ⟨cfg, .closed, 0, now⟩

/-- Embeds `CircuitBreaker.canAttempt`: when open, flip to half-open and admit the
call only if more than `resetTimeout` has passed since the last attempt;
otherwise reject. Any other state admits the call. -/
def canAttempt (now : Nat) (cb : CircuitBreaker) : Bool × CircuitBreaker :=
  match cb.state with
  | .opened =>
    if cb.config.resetTimeout < now - cb.lastAttempt then
      (true, { cb with state := .halfOpen })
    else (false, cb)
  | _ => (true, cb)

/-- Embeds `CircuitBreaker.recordSuccess`: clear the failure count, stamp the
attempt, and close the breaker when half-open. -/
def recordSuccess (now : Nat) (cb : CircuitBreaker) : CircuitBreaker :=
  let cb1 : CircuitBreaker := { cb with failures := 0, lastAttempt := now }
  match cb1.state with
  | .halfOpen => { cb1 with state := .closed }
  | _ => cb1

/-- Embeds `CircuitBreaker.recordFailure`: increment the (uint32) failure count,
stamp the attempt; half-open trips straight to open, otherwise open once
the count reaches `maxFailures`. -/
def recordFailure (now : Nat) (cb : CircuitBreaker) : CircuitBreaker :=
  let cb1 : CircuitBreaker :=
    { cb with failures := (cb.failures + 1) % 2 ^ 32, lastAttempt := now }
  match cb1.state with
  | .halfOpen => { cb1 with state := .opened }
  | _ =>
    if cb1.config.maxFailures ≤ cb1.failures then { cb1 with state := .opened }
    else cb1

/-- One wrapped provider call inside `Execute`: how long the function
runs, and what it returns if allowed to finish. -/
structure ProviderCall where
  duration : Nat
  result : Except String Unit
  deriving Repr

structure ExecResult where
  result : Except String Unit
  breaker : CircuitBreaker
  invoked : Bool
  deriving Repr

/-- Embeds `CircuitBreaker.Execute`: reject with `ErrCircuitOpen` without invoking
the function when `canAttempt` fails; otherwise invoke it. When the call
outruns the per-call timeout context, the `select` takes the context's
deadline error and records a failure; otherwise the function's own result
is recorded. -/
def execute (now : Nat) (call : ProviderCall) (cb : CircuitBreaker) : ExecResult :=
  match canAttempt now cb with
  | (false, cb1) => ⟨.error "circuit breaker is open", cb1, false⟩
  | (true, cb1) =>
    if cb1.config.timeout < call.duration then
      ⟨.error "context deadline exceeded", recordFailure now cb1, true⟩
    else
      match call.result with
      | .ok _ => ⟨.ok (), recordSuccess now cb1, true⟩
      | .error m => ⟨.error m, recordFailure now cb1, true⟩

/-- Runs `n` consecutive calls whose wrapped function fails promptly, all at
clock `t`. -/
def failTimes (n t : Nat) (cb : CircuitBreaker) : CircuitBreaker :=
  match n with
  | 0 => cb
  | n + 1 => (execute t ⟨0, .error "provider failure"⟩ (failTimes n t cb)).breaker

/-- While fewer than `maxFailures` failures have been recorded, the breaker
stays closed and counts them. -/
theorem failTimes_below_threshold (cfg : CBConfig) (t t₀ : Nat)
    (hlt : cfg.maxFailures < 2 ^ 32) :
    ∀ k, k < cfg.maxFailures →
      failTimes k t (newBreaker cfg t₀) =
        ⟨cfg, .closed, k, if k = 0 then t₀ else t⟩ := by
  intro k
  induction k with
  | zero => intro _; rfl
  | succ n ih =>
    intro hk
    have hmod : (n + 1) % 2 ^ 32 = n + 1 := Nat.mod_eq_of_lt (by omega)
    simp only [failTimes, ih (by omega), execute, canAttempt, recordFailure, hmod]
    rw [if_neg (by omega : ¬ cfg.timeout < 0), if_neg (by omega : ¬ cfg.maxFailures ≤ n + 1)]
    simp

/-- The breaker reached after `maxFailures` consecutive failed calls at
clock `t₁`, started fresh at clock `t₀`. -/
def trippedBreaker (cfg : CBConfig) (t₀ t₁ : Nat) : CircuitBreaker :=
  failTimes cfg.maxFailures t₁ (newBreaker cfg t₀)

/-- C3: circuit breaker thresholds and recovery. From a fresh breaker,
after exactly `maxFailures` consecutive failed calls the breaker is open;
while at most `resetTimeout` has passed since the last attempt, any further
call returns the circuit-open error without invoking the wrapped function;
once more than `resetTimeout` has passed, `canAttempt` admits the next call
through a half-open state, a success closes the breaker and clears the
failure count, any failure (an error or a per-call timeout) reopens it; and
a call that outruns the per-call timeout is recorded as a failure even from
the closed state. -/
theorem circuit_breaker_C3 (cfg : CBConfig) (t₀ t₁ t₂ t₃ : Nat)
    (hmf : 1 ≤ cfg.maxFailures) (hlt : cfg.maxFailures < 2 ^ 32)
    (hcool : t₂ - t₁ ≤ cfg.resetTimeout) (hwait : cfg.resetTimeout < t₃ - t₁) :
    (trippedBreaker cfg t₀ t₁ = ⟨cfg, .opened, cfg.maxFailures, t₁⟩) ∧
    (∀ call, execute t₂ call (trippedBreaker cfg t₀ t₁) =
      ⟨.error "circuit breaker is open", trippedBreaker cfg t₀ t₁, false⟩) ∧
    (canAttempt t₃ (trippedBreaker cfg t₀ t₁) =
      (true, ⟨cfg, .halfOpen, cfg.maxFailures, t₁⟩)) ∧
    (∀ d, d ≤ cfg.timeout →
      (execute t₃ ⟨d, .ok ()⟩ (trippedBreaker cfg t₀ t₁)).invoked = true ∧
      (execute t₃ ⟨d, .ok ()⟩ (trippedBreaker cfg t₀ t₁)).breaker =
        ⟨cfg, .closed, 0, t₃⟩) ∧
    (∀ d m, d ≤ cfg.timeout →
      (execute t₃ ⟨d, .error m⟩ (trippedBreaker cfg t₀ t₁)).invoked = true ∧
      (execute t₃ ⟨d, .error m⟩ (trippedBreaker cfg t₀ t₁)).breaker.state =
        .opened) ∧
    (∀ call, cfg.timeout < call.duration →
      (execute t₃ call (trippedBreaker cfg t₀ t₁)).result =
        .error "context deadline exceeded" ∧
      (execute t₃ call (trippedBreaker cfg t₀ t₁)).breaker.state = .opened) ∧
    (∀ call, cfg.timeout < call.duration →
      (execute t₁ call (newBreaker cfg t₀)).invoked = true ∧
      (execute t₁ call (newBreaker cfg t₀)).result =
        .error "context deadline exceeded" ∧
      (execute t₁ call (newBreaker cfg t₀)).breaker.failures = 1) := by
  have hpred := failTimes_below_threshold cfg t₁ t₀ hlt (cfg.maxFailures - 1) (by omega)
  have hmod : (cfg.maxFailures - 1 + 1) % 2 ^ 32 = cfg.maxFailures := by omega
  have hafter : trippedBreaker cfg t₀ t₁ = ⟨cfg, .opened, cfg.maxFailures, t₁⟩ := by
    unfold trippedBreaker
    conv_lhs => rw [show cfg.maxFailures = (cfg.maxFailures - 1) + 1 from by omega]
    simp only [failTimes, hpred, execute, canAttempt, recordFailure, hmod]
    rw [if_neg (by omega : ¬ cfg.timeout < 0),
      if_pos (by omega : cfg.maxFailures ≤ cfg.maxFailures)]
  refine ⟨hafter, ?_, ?_, ?_, ?_, ?_, ?_⟩
  · intro call
    rw [hafter]
    simp [execute, canAttempt, Nat.not_lt.mpr hcool]
  · rw [hafter]
    simp [canAttempt, hwait]
  · intro d hd
    rw [hafter]
    constructor <;>
      simp [execute, canAttempt, recordSuccess, hwait, Nat.not_lt.mpr hd]
  · intro d m hd
    rw [hafter]
    constructor <;>
      simp [execute, canAttempt, recordFailure, hwait, Nat.not_lt.mpr hd]
  · intro call hto
    rw [hafter]
    constructor <;> simp [execute, canAttempt, recordFailure, hwait, hto]
  · intro call hto
    refine ⟨?_, ?_, ?_⟩
    · simp [execute, canAttempt, newBreaker, hto]
    · simp [execute, canAttempt, newBreaker, hto]
    · simp only [execute, canAttempt, newBreaker, recordFailure, if_pos hto]
      split <;> rfl

/-- C3 witness: the payment service's configuration (5 failures, 10 time
units per call, 30 units reset): after five failures at clock 0 the breaker
is open, a sixth prompt call at clock 10 is rejected without invocation,
a call at clock 31 running for 11 units is cut off by the per-call timeout
and counted as a failure, and a prompt success at clock 31 closes the
breaker and clears the count. -/
theorem circuit_breaker_C3_witness :
    (1 ≤ (5 : Nat)) ∧ ((5 : Nat) < 2 ^ 32) ∧
    ((10 : Nat) - 0 ≤ 30) ∧ ((30 : Nat) < 31 - 0) ∧
    trippedBreaker ⟨5, 10, 30⟩ 0 0 = ⟨⟨5, 10, 30⟩, .opened, 5, 0⟩ ∧
    (execute 10 ⟨0, .error "provider failure"⟩ (trippedBreaker ⟨5, 10, 30⟩ 0 0)).invoked
      = false ∧
    (execute 31 ⟨0, .ok ()⟩ (trippedBreaker ⟨5, 10, 30⟩ 0 0)).breaker
      = ⟨⟨5, 10, 30⟩, .closed, 0, 31⟩ ∧
    (execute 0 ⟨11, .ok ()⟩ (newBreaker ⟨5, 10, 30⟩ 0)).breaker.failures = 1 :=
  have h := circuit_breaker_C3 ⟨5, 10, 30⟩ 0 0 10 31
    (by norm_num) (by norm_num) (by norm_num) (by norm_num)
  ⟨by norm_num, by norm_num, by norm_num, by norm_num, h.1,
    by rw [h.2.1 ⟨0, .error "provider failure"⟩],
    (h.2.2.2.1 0 (by norm_num)).2,
    (h.2.2.2.2.2.2 ⟨11, .ok ()⟩ (by norm_num)).2.2⟩

end Coldy

namespace Coldy

/-! ## Outbox dispatcher (services/orders/internal/outbox)

One dispatcher tick (`Publisher.processEvents`) over the `outbox` table:
read up to 100 unpublished events in created-at order, publish each, and
mark each published, continuing past per-event failures. Broker and
database behaviour during the tick are summarised by two oracles telling,
per event id, whether the publish and the mark-published update succeed. -/

structure OutboxEvent where
  id : String
  eventType : String
  published : Bool
  deriving Repr, DecidableEq

/-- Embeds `OrderRepository.GetUnpublishedEvents(ctx, 100)`: the first 100 rows
with `published = false` in created-at order (the table list is kept in
created-at order). -/
def getUnpublishedEvents (table : List OutboxEvent) : List OutboxEvent :=
  (table.filter (fun e => !e.published)).take 100

/-- Embeds `OrderRepository.MarkEventPublished`: set `published = true` on the
rows with the given id. -/
def markEventPublished (table : List OutboxEvent) (eid : String) :
    List OutboxEvent :=
  table.map (fun e => if e.id == eid then { e with published := true } else e)

/-- The body of the `for _, event := range events` loop of
`Publisher.processEvents`: on a publish failure log and `continue`; after a
successful publish, attempt the mark and on its failure log and `continue`.
The accumulator carries the table plus the ids attempted so far. -/
def processOneEvent (publishOk markOk : String → Bool)
    (acc : List OutboxEvent × List String) (e : OutboxEvent) :
    List OutboxEvent × List String :=
  let attempted := acc.2 ++ [e.id]
  if publishOk e.id then
    if markOk e.id then (markEventPublished acc.1 e.id, attempted)
    else (acc.1, attempted)
  else (acc.1, attempted)

/-- Embeds `Publisher.processEvents`: one tick over the table. -/
def processEvents (publishOk markOk : String → Bool)
    (table : List OutboxEvent) : List OutboxEvent × List String :=
  (getUnpublishedEvents table).foldl (processOneEvent publishOk markOk)
    (table, [])

/-- The row update a tick performs on one row: it becomes published exactly
when it already was, or some batch event with its id had both a successful
publish and a successful mark. -/
def tickRow (publishOk markOk : String → Bool) (batch : List OutboxEvent)
    (e : OutboxEvent) : OutboxEvent :=
  { e with published :=
      e.published ||
        batch.any (fun b => b.id == e.id && publishOk b.id && markOk b.id) }

theorem tickRow_nil (publishOk markOk : String → Bool) (e : OutboxEvent) :
    tickRow publishOk markOk [] e = e := by
  simp only [tickRow, List.any_nil, Bool.or_false]

theorem tickRow_cons_mark (publishOk markOk : String → Bool)
    (b : OutboxEvent) (bs : List OutboxEvent) (e : OutboxEvent)
    (hp : publishOk b.id = true) (hm : markOk b.id = true) :
    tickRow publishOk markOk bs
        (if e.id == b.id then { e with published := true } else e) =
      tickRow publishOk markOk (b :: bs) e := by
  by_cases hid : e.id = b.id
  · rw [if_pos (by simp [hid])]
    simp only [tickRow, List.any_cons, hp, hm, hid]
    simp
  · rw [if_neg (by simp [hid])]
    simp only [tickRow, List.any_cons]
    have : (b.id == e.id) = false := by
      simp only [beq_eq_false_iff_ne, ne_eq]
      exact fun h => hid h.symm
    rw [this]
    simp

theorem tickRow_cons_skip (publishOk markOk : String → Bool)
    (b : OutboxEvent) (bs : List OutboxEvent) (e : OutboxEvent)
    (hfail : publishOk b.id = false ∨ markOk b.id = false) :
    tickRow publishOk markOk bs e = tickRow publishOk markOk (b :: bs) e := by
  simp only [tickRow, List.any_cons]
  rcases hfail with hf | hf <;> rw [hf] <;> simp

theorem processLoop_table (publishOk markOk : String → Bool) :
    ∀ (batch : List OutboxEvent) (table : List OutboxEvent) (l : List String),
      (batch.foldl (processOneEvent publishOk markOk) (table, l)).1 =
        table.map (tickRow publishOk markOk batch) := by
  intro batch
  induction batch with
  | nil =>
    intro table l
    simp only [List.foldl_nil]
    exact ((List.map_congr_left fun e _ => tickRow_nil publishOk markOk e).trans
      (List.map_id table)).symm
  | cons b bs ih =>
    intro table l
    rw [List.foldl_cons, processOneEvent]
    by_cases hp : publishOk b.id
    · by_cases hm : markOk b.id
      · rw [if_pos hp, if_pos hm, ih]
        unfold markEventPublished
        rw [List.map_map]
        exact List.map_congr_left fun e _ => by
          simpa using tickRow_cons_mark publishOk markOk b bs e hp hm
      · rw [if_pos hp, if_neg hm, ih]
        exact List.map_congr_left fun e _ =>
          tickRow_cons_skip publishOk markOk b bs e
            (Or.inr (Bool.eq_false_iff.mpr hm))
    · rw [if_neg hp, ih]
      exact List.map_congr_left fun e _ =>
        tickRow_cons_skip publishOk markOk b bs e
          (Or.inl (Bool.eq_false_iff.mpr hp))

theorem processLoop_attempted (publishOk markOk : String → Bool) :
    ∀ (batch : List OutboxEvent) (table : List OutboxEvent) (l : List String),
      (batch.foldl (processOneEvent publishOk markOk) (table, l)).2 =
        l ++ batch.map (fun e => e.id) := by
  intro batch
  induction batch with
  | nil => intro table l; simp
  | cons b bs ih =>
    intro table l
    rw [List.foldl_cons, processOneEvent]
    by_cases hp : publishOk b.id
    · by_cases hm : markOk b.id
      · rw [if_pos hp, if_pos hm, ih]; simp
      · rw [if_pos hp, if_neg hm, ih]; simp
    · rw [if_neg hp, ih]; simp

/-- C2: outbox dispatcher tick. Every event of the batch (the unpublished
rows, in order) is attempted, regardless of earlier failures; and the tick
rewrites each row by `tickRow`: a row is newly marked published exactly
when a batch event with its id had both its broker publish and its
mark-published update succeed, so a publish failure leaves the row
unpublished for the next tick, and a row is never marked without a prior
successful publish. Moreover any row whose id neither published nor marked
successfully survives the tick unchanged. -/
theorem outbox_dispatcher_C2 (publishOk markOk : String → Bool)
    (table : List OutboxEvent) :
    (processEvents publishOk markOk table).2 =
      (getUnpublishedEvents table).map (fun e => e.id) ∧
    (processEvents publishOk markOk table).1 =
      table.map (tickRow publishOk markOk (getUnpublishedEvents table)) ∧
    (∀ e ∈ table, (publishOk e.id = false ∨ markOk e.id = false) →
      e ∈ (processEvents publishOk markOk table).1) := by
  refine ⟨?_, ?_, ?_⟩
  · rw [processEvents, processLoop_attempted]
    simp
  · rw [processEvents, processLoop_table]
  · intro e he hfail
    rw [processEvents, processLoop_table]
    have hz : (getUnpublishedEvents table).any
        (fun b => b.id == e.id && publishOk b.id && markOk b.id) = false := by
      rw [List.any_eq_false]
      intro b _
      by_cases hid : b.id = e.id
      · rcases hfail with hf | hf <;> simp [hid, hf]
      · simp [hid]
    have : tickRow publishOk markOk (getUnpublishedEvents table) e = e := by
      simp only [tickRow, hz, Bool.or_false]
    exact this ▸ List.mem_map_of_mem _ he

/-- C2 witness: a two-event tick where the broker rejects the first event:
the first row stays unpublished, the second is still attempted and ends up
published. -/
theorem outbox_dispatcher_C2_witness :
    (processEvents (fun i => i != "e1") (fun _ => true)
        [⟨"e1", "order.created", false⟩, ⟨"e2", "order.created", false⟩]).2
      = ["e1", "e2"] ∧
    ⟨"e1", "order.created", false⟩ ∈
      (processEvents (fun i => i != "e1") (fun _ => true)
        [⟨"e1", "order.created", false⟩, ⟨"e2", "order.created", false⟩]).1 ∧
    (processEvents (fun i => i != "e1") (fun _ => true)
        [⟨"e1", "order.created", false⟩, ⟨"e2", "order.created", false⟩]).1
      = [⟨"e1", "order.created", false⟩, ⟨"e2", "order.created", true⟩] :=
  have h := outbox_dispatcher_C2 (fun i => i != "e1") (fun _ => true)
    [⟨"e1", "order.created", false⟩, ⟨"e2", "order.created", false⟩]
  ⟨by rw [h.1]; rfl,
    h.2.2 ⟨"e1", "order.created", false⟩ (by simp) (Or.inl (by rfl)),
    by rw [h.2.1]; rfl⟩

end Coldy

namespace Coldy

/-! ## Orders service (services/orders)

The order data model of the repository layer, the total computation of
`OrderService.CreateOrder`, the status operations, and the gRPC
`Server.CreateOrder` handler. Monetary amounts are Go `int64`; Go signed
integer arithmetic wraps modulo 2^64, captured by `wrap64`. -/

/-- Two's-complement wrap-around of Go `int64` arithmetic. -/
def wrap64 (x : Int) : Int := (x + 2 ^ 63) % 2 ^ 64 - 2 ^ 63

theorem wrap64_eq_self (x : Int) (hlo : -(2 ^ 63) ≤ x) (hhi : x < 2 ^ 63) :
    wrap64 x = x := by
  unfold wrap64
  omega

/-- The order statuses of the repository (`StatusPending`, ...). -/
inductive OrderStatus where
  | pending
  | confirmed
  | paid
  | processing
  | shipped
  | delivered
  | cancelled
  | refunded
  deriving Repr, DecidableEq

/-- The string value of each repository status constant; note
`StatusCancelled = "canceled"`. -/
def statusText : OrderStatus → String
  | .pending => "pending"
  | .confirmed => "confirmed"
  | .paid => "paid"
  | .processing => "processing"
  | .shipped => "shipped"
  | .delivered => "delivered"
  | .cancelled => "canceled"
  | .refunded => "refunded"

structure Money where
  currency : String
  amount : Int
  deriving Repr, DecidableEq

/-- Embeds `service.OrderItemRequest`. -/
structure OrderItemRequest where
  productID : String
  productName : String
  quantity : Int
  unitPrice : Money
  deriving Repr, DecidableEq

/-- Embeds `service.CreateOrderRequest`. -/
structure CreateOrderRequest where
  userID : String
  items : List OrderItemRequest
  shippingStreet : String
  shippingCity : String
  shippingState : String
  shippingPostalCode : String
  shippingCountry : String
  deriving Repr, DecidableEq

/-- Embeds `repository.OrderItem` (the fields `CreateOrder` populates). -/
structure OrderItem where
  productID : String
  productName : String
  quantity : Int
  unitPriceCurrency : String
  unitPriceAmount : Int
  totalPriceCurrency : String
  totalPriceAmount : Int
  deriving Repr, DecidableEq

/-- Embeds `repository.Order` (the fields `CreateOrder` populates). -/
structure Order where
  userID : String
  totalCurrency : String
  totalAmount : Int
  status : OrderStatus
  items : List OrderItem
  shippingStreet : String
  shippingCity : String
  shippingState : String
  shippingPostalCode : String
  shippingCountry : String
  deriving Repr, DecidableEq

/-- An `outbox` row as the order service writes it (aggregate type and
event type; the payload carries no information the claims need). -/
structure OrderEvent where
  aggregateType : String
  eventType : String
  deriving Repr, DecidableEq

/-- One step of the total-amount accumulation of `CreateOrder`:
`totalAmount += item.UnitPrice.Amount * int64(item.Quantity)` in Go int64
arithmetic. -/
def addItemAmount (acc : Int) (it : OrderItemRequest) : Int :=
  wrap64 (acc + wrap64 (it.unitPrice.amount * it.quantity))

/-- One step of the currency selection of `CreateOrder`:
`if item.UnitPrice.Currency != "" { currency = item.UnitPrice.Currency }`. -/
def pickCurrency (cur : String) (it : OrderItemRequest) : String :=
  if it.unitPrice.currency ≠ "" then it.unitPrice.currency else cur

/-- The `for _, item := range req.Items` totals loop of
`OrderService.CreateOrder`, starting from `totalAmount = 0` and
`currency = "USD"`. -/
def totalsLoop (items : List OrderItemRequest) : Int × String :=
  items.foldl (fun acc it => (addItemAmount acc.1 it, pickCurrency acc.2 it))
    (0, "USD")

/-- The totals loop updates the amount and the currency independently. -/
theorem totalsLoop_split :
    ∀ (items : List OrderItemRequest) (acc : Int) (cur : String),
      items.foldl (fun acc it => (addItemAmount acc.1 it, pickCurrency acc.2 it))
          (acc, cur) =
        (items.foldl addItemAmount acc, items.foldl pickCurrency cur) := by
  intro items
  induction items with
  | nil => intro acc cur; rfl
  | cons it rest ih => intro acc cur; rw [List.foldl_cons, ih]; rfl

/-- Without overflow, the amount fold is plain summation. -/
theorem amountFold_eq_sum :
    ∀ (items : List OrderItemRequest) (acc : Int), 0 ≤ acc →
      (∀ it ∈ items, 0 ≤ it.unitPrice.amount ∧ 0 ≤ it.quantity) →
      acc + (items.map (fun it => it.unitPrice.amount * it.quantity)).sum < 2 ^ 63 →
      items.foldl addItemAmount acc =
        acc + (items.map (fun it => it.unitPrice.amount * it.quantity)).sum := by
  intro items
  induction items with
  | nil => intro acc _ _ _; simp
  | cons it rest ih =>
    intro acc hacc hnn hbound
    have hitnn : 0 ≤ it.unitPrice.amount * it.quantity :=
      mul_nonneg (hnn it (by simp)).1 (hnn it (by simp)).2
    have hrestnn : 0 ≤ (rest.map (fun it => it.unitPrice.amount * it.quantity)).sum :=
      List.sum_nonneg (by
        intro x hx
        obtain ⟨y, hy, rfl⟩ := List.mem_map.mp hx
        exact mul_nonneg (hnn y (by simp [hy])).1 (hnn y (by simp [hy])).2)
    rw [List.map_cons, List.sum_cons] at hbound
    have hp : wrap64 (it.unitPrice.amount * it.quantity) =
        it.unitPrice.amount * it.quantity :=
      wrap64_eq_self _ (by omega) (by omega)
    have hs : wrap64 (acc + it.unitPrice.amount * it.quantity) =
        acc + it.unitPrice.amount * it.quantity :=
      wrap64_eq_self _ (by omega) (by omega)
    rw [List.foldl_cons]
    show rest.foldl addItemAmount (addItemAmount acc it) = _
    rw [addItemAmount, hp, hs,
      ih (acc + it.unitPrice.amount * it.quantity) (by omega)
        (fun x hx => hnn x (by simp [hx])) (by omega)]
    rw [List.map_cons, List.sum_cons]
    ring

/-- When every item carries the same non-empty currency, the currency fold
of a non-empty item list yields that currency. -/
theorem currencyFold_eq (c : String) (hc : c ≠ "") :
    ∀ (items : List OrderItemRequest) (cur : String),
      (∀ it ∈ items, it.unitPrice.currency = c) → items ≠ [] →
      items.foldl pickCurrency cur = c := by
  intro items
  induction items with
  | nil => intro cur _ hne; exact absurd rfl hne
  | cons it rest ih =>
    intro cur hcur _
    rw [List.foldl_cons]
    have h1 : pickCurrency cur it = c := by
      rw [pickCurrency, hcur it (by simp), if_pos hc]
    rcases rest.eq_nil_or_concat with hrest | ⟨_, _, hrest⟩
    · subst hrest; simpa using h1
    · have hrestne : rest ≠ [] := by
        subst hrest; simp
      rw [ih (pickCurrency cur it) (fun x hx => hcur x (by simp [hx])) hrestne]

/-- The `repository.OrderItem` built from one draft by `CreateOrder`:
snapshot name and unit price, derived total price in int64 arithmetic. -/
def buildOrderItem (it : OrderItemRequest) : OrderItem :=
  { productID := it.productID
    productName := it.productName
    quantity := it.quantity
    unitPriceCurrency := it.unitPrice.currency
    unitPriceAmount := it.unitPrice.amount
    totalPriceCurrency := it.unitPrice.currency
    totalPriceAmount := wrap64 (it.unitPrice.amount * it.quantity) }

/-- The order and the `order.created` outbox row that
`OrderService.CreateOrder` hands to `CreateWithOutbox` on the
idempotency-miss path (the repository persists both unchanged). -/
def createOrderService (req : CreateOrderRequest) : Order × OrderEvent :=
  let totals := totalsLoop req.items
  ({ userID := req.userID
     totalCurrency := totals.2
     totalAmount := totals.1
     status := .pending
     items := req.items.map buildOrderItem
     shippingStreet := req.shippingStreet
     shippingCity := req.shippingCity
     shippingState := req.shippingState
     shippingPostalCode := req.shippingPostalCode
     shippingCountry := req.shippingCountry },
   ⟨"order", "order.created"⟩)

/-- Embeds `OrderRepository.UpdateStatus` on the addressed row: error when the
order is absent (zero rows affected), otherwise write the requested status
unconditionally and append the outbox event in the same transaction. -/
def repoUpdateStatus (row : Option Order) (newStatus : OrderStatus)
    (event : OrderEvent) (outbox : List OrderEvent) :
    Except String (Order × List OrderEvent) :=
  match row with
  | none => .error "order not found"
  | some o => .ok ({ o with status := newStatus }, outbox ++ [event])

/-- Embeds `OrderService.UpdateOrderStatus`: build the `order.<status>` event and
delegate to the repository; no transition check. -/
def updateOrderStatus (row : Option Order) (newStatus : OrderStatus)
    (outbox : List OrderEvent) : Except String (Order × List OrderEvent) :=
  repoUpdateStatus row newStatus ⟨"order", "order." ++ statusText newStatus⟩
    outbox

/-- Embeds `OrderService.CancelOrder`: load the order, refuse only the statuses
`delivered` and `cancelled`, then update to `cancelled` with an
`order.canceled` event. -/
def cancelOrder (row : Option Order) (outbox : List OrderEvent) :
    Except String (Order × List OrderEvent) :=
  match row with
  | none => .error "order not found"
  | some o =>
    if o.status = .delivered ∨ o.status = .cancelled then
      .error ("order cannot be canceled in status: " ++ statusText o.status)
    else
      repoUpdateStatus (some o) .cancelled ⟨"order", "order.canceled"⟩ outbox

/-- Modelled from the spec (§4.2): the permitted transitions of the status
DAG. Used only to compare the spec's prescription with the code. -/
def specAllowedTransition : OrderStatus → OrderStatus → Bool
  | .pending, .confirmed => true
  | .pending, .cancelled => true
  | .confirmed, .paid => true
  | .confirmed, .cancelled => true
  | .paid, .processing => true
  | .paid, .refunded => true
  | .processing, .shipped => true
  | .processing, .cancelled => true
  | .shipped, .delivered => true
  | _, _ => false

/-! ### gRPC handler (`Server.CreateOrder`) -/

structure Address where
  street : String
  city : String
  state : String
  postalCode : String
  country : String
  deriving Repr, DecidableEq

/-- An item of the `CreateOrder` RPC request: product id and quantity
only. -/
structure RpcOrderItem where
  productID : String
  quantity : Int
  deriving Repr, DecidableEq

structure CreateOrderRpcRequest where
  idempotencyKey : String
  userID : String
  items : List RpcOrderItem
  shippingAddress : Address
  deriving Repr, DecidableEq

inductive GrpcError where
  | invalidArgument (msg : String)
  | internal (msg : String)
  deriving Repr, DecidableEq

/-- The request validation at the top of `Server.CreateOrder`: empty
idempotency key, empty user id, and empty item list are the only rejected
shapes. -/
def validateCreateOrder (req : CreateOrderRpcRequest) : Option String :=
  if req.idempotencyKey = "" then some "idempotency_key is required"
  else if req.userID = "" then some "user_id is required"
  else if req.items.isEmpty then some "items are required"
  else none

/-- The item conversion of `Server.CreateOrder`: only `ProductID` and
`Quantity` are copied; `ProductName` and `UnitPrice` keep their Go zero
values. -/
def convertRpcItem (it : RpcOrderItem) : OrderItemRequest :=
  { productID := it.productID
    productName := ""
    quantity := it.quantity
    unitPrice := ⟨"", 0⟩ }

/-- Embeds `Server.CreateOrder`: validate, convert the items and the address, and
run the service-layer order construction that `CreateWithOutbox` persists. -/
def handlerCreateOrder (req : CreateOrderRpcRequest) :
    Except GrpcError (Order × OrderEvent) :=
  match validateCreateOrder req with
  | some msg => .error (.invalidArgument msg)
  | none =>
    .ok (createOrderService
      { userID := req.userID
        items := req.items.map convertRpcItem
        shippingStreet := req.shippingAddress.street
        shippingCity := req.shippingAddress.city
        shippingState := req.shippingAddress.state
        shippingPostalCode := req.shippingAddress.postalCode
        shippingCountry := req.shippingAddress.country })

/-- A delivered order, used to exercise the status operations. -/
def deliveredOrder : Order :=
  { userID := "u1", totalCurrency := "USD", totalAmount := 1000,
    status := .delivered, items := [],
    shippingStreet := "1 Main St", shippingCity := "Springfield",
    shippingState := "IL", shippingPostalCode := "62701",
    shippingCountry := "US" }

/-- A refunded order, used to exercise cancellation. -/
def refundedOrder : Order :=
  { deliveredOrder with status := .refunded }

end Coldy

namespace Coldy

/-- C5 counterexample: the transition delivered → pending is outside the
spec's status DAG, yet `UpdateOrderStatus` applies it: the call succeeds
and rewrites the order's status, so illegal transitions are not rejected
and observed status sequences need not follow the DAG. -/
theorem order_status_dag_C5_counterexample :
    specAllowedTransition .delivered .pending = false ∧
    deliveredOrder.status = .delivered ∧
    updateOrderStatus (some deliveredOrder) .pending [] =
      .ok ({ deliveredOrder with status := .pending },
        [⟨"order", "order.pending"⟩]) ∧
    ({ deliveredOrder with status := .pending } : Order).status ≠
      deliveredOrder.status := by
  refine ⟨rfl, rfl, rfl, ?_⟩
  decide

/-- C5 amended: `UpdateOrderStatus` performs no transition validation: on
an existing order it writes any requested status unconditionally and
appends an `order.<status>` outbox event; it fails only when the order does
not exist. The spec's status DAG is not enforced by the code. -/
theorem order_status_update_C5 (o : Order) (newStatus : OrderStatus)
    (outbox : List OrderEvent) :
    updateOrderStatus (some o) newStatus outbox =
      .ok ({ o with status := newStatus },
        outbox ++ [⟨"order", "order." ++ statusText newStatus⟩]) ∧
    updateOrderStatus none newStatus outbox = .error "order not found" :=
  ⟨rfl, rfl⟩

/-- C9 counterexample: `CancelOrder` on a refunded order succeeds — the
code checks only `delivered` and `cancelled` — contradicting the claim
that cancellation fails for every status in the set
delivered, cancelled, refunded. -/
theorem cancel_order_C9_counterexample :
    refundedOrder.status = .refunded ∧
    cancelOrder (some refundedOrder) [] =
      .ok ({ refundedOrder with status := .cancelled },
        [⟨"order", "order.canceled"⟩]) :=
  ⟨rfl, rfl⟩

/-- C9 amended: `CancelOrder` fails exactly when the order's status is
`delivered` or `cancelled` (leaving it unchanged); for every other status,
`refunded` included, it transitions the order to `cancelled` and records an
`order.canceled` outbox event; a missing order is an error. -/
theorem cancel_order_C9 (o : Order) (outbox : List OrderEvent) :
    (o.status = .delivered ∨ o.status = .cancelled →
      cancelOrder (some o) outbox =
        .error ("order cannot be canceled in status: " ++ statusText o.status)) ∧
    (o.status ≠ .delivered → o.status ≠ .cancelled →
      cancelOrder (some o) outbox =
        .ok ({ o with status := .cancelled },
          outbox ++ [⟨"order", "order.canceled"⟩])) ∧
    cancelOrder none outbox = .error "order not found" := by
  refine ⟨?_, ?_, rfl⟩
  · intro h
    simp only [cancelOrder, if_pos h]
  · intro h1 h2
    simp only [cancelOrder, if_neg (by tauto : ¬(o.status = .delivered ∨ o.status = .cancelled))]
    rfl

/-- C9 witness: a paid order cancels: the status becomes `cancelled` and the
`order.canceled` event is appended. -/
theorem cancel_order_C9_witness :
    ({ deliveredOrder with status := .paid } : Order).status ≠ .delivered ∧
    ({ deliveredOrder with status := .paid } : Order).status ≠ .cancelled ∧
    cancelOrder (some { deliveredOrder with status := .paid }) [] =
      .ok ({ deliveredOrder with status := .cancelled },
        [⟨"order", "order.canceled"⟩]) :=
  ⟨by decide, by decide,
    (cancel_order_C9 { deliveredOrder with status := .paid } []).2.1
      (by decide) (by decide)⟩

/-- The request used to show what validation lets through: a non-positive
quantity and entirely empty shipping-address fields. -/
def badCreateReq : CreateOrderRpcRequest :=
  { idempotencyKey := "k1", userID := "u1", items := [⟨"p1", 0⟩],
    shippingAddress := ⟨"", "", "", "", ""⟩ }

/-- C7 counterexample: a request with an item of quantity 0 and all
shipping-address fields empty passes validation and is persisted, so
non-positive quantities and missing address fields (and a fortiori mixed
currencies, which the RPC request cannot even carry) are not rejected. -/
theorem create_order_validation_C7_counterexample :
    (∃ it ∈ badCreateReq.items, it.quantity ≤ 0) ∧
    badCreateReq.shippingAddress.street = "" ∧
    validateCreateOrder badCreateReq = none ∧
    handlerCreateOrder badCreateReq =
      .ok ({ userID := "u1", totalCurrency := "USD", totalAmount := 0,
             status := .pending,
             items := [⟨"p1", "", 0, "", 0, "", 0⟩],
             shippingStreet := "", shippingCity := "", shippingState := "",
             shippingPostalCode := "", shippingCountry := "" },
           ⟨"order", "order.created"⟩) := by
  refine ⟨⟨⟨"p1", 0⟩, by simp [badCreateReq], by norm_num⟩, rfl, rfl, by rfl⟩

/-- C7 amended: the `CreateOrder` handler's validation rejects — with
`InvalidArgument`, before any persistence or event emission — exactly an
empty idempotency key, an empty user id, or an empty item list; it does not
inspect quantities, currencies or shipping-address fields. -/
theorem create_order_validation_C7 (req : CreateOrderRpcRequest) :
    (validateCreateOrder req = none ↔
      req.idempotencyKey ≠ "" ∧ req.userID ≠ "" ∧ req.items ≠ []) ∧
    (∀ msg, validateCreateOrder req = some msg →
      handlerCreateOrder req = .error (.invalidArgument msg)) := by
  constructor
  · by_cases h1 : req.idempotencyKey = ""
    · simp [validateCreateOrder, h1]
    · by_cases h2 : req.userID = ""
      · simp [validateCreateOrder, h1, h2]
      · by_cases h3 : req.items.isEmpty
        · simp [validateCreateOrder, h1, h2, h3]
          simpa using h3
        · simp [validateCreateOrder, h1, h2, h3]
          simpa using h3
  · intro msg hmsg
    simp only [handlerCreateOrder, hmsg]

/-- C7 witness: a request with an empty item list is rejected with
`InvalidArgument` by the handler. -/
theorem create_order_validation_C7_witness :
    validateCreateOrder ⟨"k1", "u1", [], ⟨"a", "b", "c", "d", "e"⟩⟩ =
      some "items are required" ∧
    handlerCreateOrder ⟨"k1", "u1", [], ⟨"a", "b", "c", "d", "e"⟩⟩ =
      .error (.invalidArgument "items are required") :=
  ⟨rfl,
    (create_order_validation_C7 ⟨"k1", "u1", [], ⟨"a", "b", "c", "d", "e"⟩⟩).2
      "items are required" rfl⟩

/-- A service-level request whose two items carry different currencies. -/
def mixedCurrencyReq : CreateOrderRequest :=
  { userID := "u1",
    items := [⟨"p1", "Widget", 2, ⟨"EUR", 500⟩⟩,
              ⟨"p2", "Gadget", 1, ⟨"USD", 300⟩⟩],
    shippingStreet := "1 Main St", shippingCity := "Springfield",
    shippingState := "IL", shippingPostalCode := "62701",
    shippingCountry := "DE" }

/-- C8 counterexample: with items in EUR then USD, the persisted order's
total currency is the last non-empty currency ("USD"), which does not match
the first item's unit-price currency ("EUR"): the claim's currency conjunct
fails on the service as written. -/
theorem order_totals_C8_counterexample :
    ((createOrderService mixedCurrencyReq).1.items.map
        (fun it => it.unitPriceCurrency)) = ["EUR", "USD"] ∧
    (createOrderService mixedCurrencyReq).1.totalCurrency = "USD" ∧
    ∃ item ∈ (createOrderService mixedCurrencyReq).1.items,
      item.unitPriceCurrency ≠
        (createOrderService mixedCurrencyReq).1.totalCurrency := by
  refine ⟨by rfl, by rfl, ?_⟩
  decide

/-- C8 amended: for every order built by the service-layer `CreateOrder`
from drafts with non-negative prices and quantities whose exact total fits
in int64: the stored total equals the sum over items of unit price ×
quantity, each item's stored total price equals its unit price × quantity
with the item's own currency, and — provided all items share one non-empty
currency — the order's total currency is that shared currency (in general
it is the last non-empty item currency, defaulting to USD). -/
theorem order_totals_C8 (req : CreateOrderRequest)
    (hnn : ∀ it ∈ req.items, 0 ≤ it.unitPrice.amount ∧ 0 ≤ it.quantity)
    (hbound : (req.items.map (fun it => it.unitPrice.amount * it.quantity)).sum
      < 2 ^ 63) :
    (createOrderService req).1.totalAmount =
      (req.items.map (fun it => it.unitPrice.amount * it.quantity)).sum ∧
    (∀ item ∈ (createOrderService req).1.items,
      item.totalPriceAmount = item.unitPriceAmount * item.quantity ∧
      item.totalPriceCurrency = item.unitPriceCurrency) ∧
    (∀ c, c ≠ "" → req.items ≠ [] →
      (∀ it ∈ req.items, it.unitPrice.currency = c) →
      (createOrderService req).1.totalCurrency = c) := by
  have hmapnn : ∀ x ∈ req.items.map (fun it => it.unitPrice.amount * it.quantity),
      0 ≤ x := by
    intro x hx
    obtain ⟨y, hy, rfl⟩ := List.mem_map.mp hx
    exact mul_nonneg (hnn y hy).1 (hnn y hy).2
  refine ⟨?_, ?_, ?_⟩
  · show (totalsLoop req.items).1 = _
    rw [totalsLoop, totalsLoop_split]
    simpa using amountFold_eq_sum req.items 0 le_rfl hnn (by simpa using hbound)
  · intro item him
    have him' : item ∈ req.items.map buildOrderItem := him
    obtain ⟨src, hsrc, rfl⟩ := List.mem_map.mp him'
    have hupper : src.unitPrice.amount * src.quantity ≤
        (req.items.map (fun it => it.unitPrice.amount * it.quantity)).sum :=
      List.single_le_sum hmapnn _ (List.mem_map_of_mem _ hsrc)
    have hprod : 0 ≤ src.unitPrice.amount * src.quantity :=
      mul_nonneg (hnn src hsrc).1 (hnn src hsrc).2
    refine ⟨?_, rfl⟩
    show wrap64 (src.unitPrice.amount * src.quantity) = _
    rw [wrap64_eq_self _ (by omega) (by omega)]
    rfl
  · intro c hc hne hcur
    show (totalsLoop req.items).2 = c
    rw [totalsLoop, totalsLoop_split]
    exact currencyFold_eq c hc req.items "USD" hcur hne

/-- A single-item USD request used to instantiate the totals theorem. -/
def singleUsdReq : CreateOrderRequest :=
  { userID := "u1",
    items := [⟨"p1", "Widget", 2, ⟨"USD", 500⟩⟩],
    shippingStreet := "1 Main St", shippingCity := "Springfield",
    shippingState := "IL", shippingPostalCode := "62701",
    shippingCountry := "US" }

/-- C8 witness: the mixed-currency two-item order still totals
2·500 + 1·300 = 1300 in amount, and the single-item USD order totals
1000 with total currency USD. -/
theorem order_totals_C8_witness :
    (createOrderService mixedCurrencyReq).1.totalAmount = 1300 ∧
    (createOrderService singleUsdReq).1.totalAmount = 1000 ∧
    (createOrderService singleUsdReq).1.totalCurrency = "USD" := by
  have hm := order_totals_C8 mixedCurrencyReq (by decide) (by decide)
  have hs := order_totals_C8 singleUsdReq (by decide) (by decide)
  exact ⟨by rw [hm.1]; rfl, by rw [hs.1]; rfl,
    hs.2.2 "USD" (by decide) (by decide) (by decide)⟩

theorem convertedItems_amount_zero :
    ∀ (its : List RpcOrderItem),
      (its.map convertRpcItem).foldl addItemAmount 0 = 0 := by
  intro its
  induction its with
  | nil => rfl
  | cons it rest ih =>
    rw [List.map_cons, List.foldl_cons]
    have : addItemAmount 0 (convertRpcItem it) = 0 := by
      show wrap64 (0 + wrap64 (0 * it.quantity)) = 0
      rw [zero_mul]
      norm_num [wrap64]
    rw [this, ih]

theorem convertedItems_currency_keep :
    ∀ (its : List RpcOrderItem) (cur : String),
      (its.map convertRpcItem).foldl pickCurrency cur = cur := by
  intro its
  induction its with
  | nil => intro cur; rfl
  | cons it rest ih =>
    intro cur
    rw [List.map_cons, List.foldl_cons]
    have : pickCurrency cur (convertRpcItem it) = cur := by
      simp [pickCurrency, convertRpcItem]
    rw [this, ih]

/-- C10: every order created through the `CreateOrder` RPC handler is
persisted with total amount 0 and total currency "USD", and each of its
items has an empty product name, unit price amount 0, empty unit-price
currency, and total price 0 — the handler drops unit prices and product
names when converting request items, and the service computes the total
from those zero values. -/
theorem rpc_zero_price_C10 (req : CreateOrderRpcRequest) (o : Order)
    (ev : OrderEvent) (h : handlerCreateOrder req = .ok (o, ev)) :
    o.totalAmount = 0 ∧ o.totalCurrency = "USD" ∧
    ∀ item ∈ o.items, item.productName = "" ∧ item.unitPriceAmount = 0 ∧
      item.unitPriceCurrency = "" ∧ item.totalPriceAmount = 0 := by
  rw [handlerCreateOrder] at h
  cases hv : validateCreateOrder req with
  | some msg =>
    rw [hv] at h
    exact Except.noConfusion h
  | none =>
    rw [hv] at h
    injection h with h
    have ho := congrArg Prod.fst h
    dsimp at ho
    subst ho
    refine ⟨?_, ?_, ?_⟩
    · show (totalsLoop (req.items.map convertRpcItem)).1 = 0
      rw [totalsLoop, totalsLoop_split]
      exact convertedItems_amount_zero req.items
    · show (totalsLoop (req.items.map convertRpcItem)).2 = "USD"
      rw [totalsLoop, totalsLoop_split]
      exact convertedItems_currency_keep req.items "USD"
    · intro item him
      have him' : item ∈ (req.items.map convertRpcItem).map buildOrderItem := him
      obtain ⟨src, hsrc, rfl⟩ := List.mem_map.mp him'
      obtain ⟨rit, hrit, rfl⟩ := List.mem_map.mp hsrc
      refine ⟨rfl, rfl, rfl, ?_⟩
      show wrap64 (0 * rit.quantity) = 0
      rw [zero_mul]
      norm_num [wrap64]

/-- The order the handler persists for a three-unit single-item request. -/
def c10Order : Order :=
  { userID := "u1", totalCurrency := "USD", totalAmount := 0,
    status := .pending, items := [⟨"p1", "", 3, "", 0, "", 0⟩],
    shippingStreet := "a", shippingCity := "b", shippingState := "c",
    shippingPostalCode := "d", shippingCountry := "e" }

/-- C10 witness: a concrete RPC request for three units of p1 is persisted
with total 0 USD and a zero-priced item. -/
theorem rpc_zero_price_C10_witness :
    handlerCreateOrder ⟨"k1", "u1", [⟨"p1", 3⟩], ⟨"a", "b", "c", "d", "e"⟩⟩ =
      .ok (c10Order, ⟨"order", "order.created"⟩) ∧
    c10Order.totalAmount = 0 ∧ c10Order.totalCurrency = "USD" := by
  have h := rpc_zero_price_C10 ⟨"k1", "u1", [⟨"p1", 3⟩], ⟨"a", "b", "c", "d", "e"⟩⟩
    c10Order ⟨"order", "order.created"⟩ (by rfl)
  exact ⟨by rfl, h.1, h.2.1⟩

end Coldy

namespace Coldy

/-! ## Payment service (services/payments)

`PaymentService.ConfirmPayment` drives a pending payment through the
provider (wrapped in the circuit breaker) and records the outcome. The
wrapped invocation is summarised by its result: a provider transaction id,
or the error `circuitBreaker.Execute` returned (the provider's error, the
circuit-open error, or the per-call deadline error). -/

structure Payment where
  id : String
  orderID : String
  userID : String
  amountCurrency : String
  amountValue : Int
  status : String
  method : String
  providerTransactionID : String
  errorMessage : String
  deriving Repr, DecidableEq

/-- A `payment_outbox` row as `publishEvent` inserts it. -/
structure PaymentEvent where
  aggregateType : String
  aggregateID : String
  eventType : String
  deriving Repr, DecidableEq

/-- What `ConfirmPayment` leaves behind: the value returned to the caller,
the stored payment row, and the `payment_outbox` table. -/
structure ConfirmResult where
  returned : Except String Payment
  stored : Payment
  outbox : List PaymentEvent
  deriving Repr

/-- Embeds `PaymentService.ConfirmPayment` on the loaded payment row: a
non-pending payment is returned unchanged; otherwise the row passes
through `processing` (which blanks the error message), the provider is
invoked through the breaker, and the outcome is recorded — `succeeded`
with the transaction id and a `payment.succeeded` outbox row, or `failed`
with the error text, a `payment.failed` outbox row, and an error return
wrapping the provider failure. -/
def confirmPayment (p : Payment) (outbox : List PaymentEvent)
    (provRes : Except String String) : ConfirmResult :=
  if p.status ≠ "pending" then ⟨.ok p, p, outbox⟩
  else
    let p1 : Payment := { p with status := "processing", errorMessage := "" }
    match provRes with
    | .error msg =>
      let p2 : Payment := { p1 with status := "failed", errorMessage := msg }
      ⟨.error ("payment processing failed: " ++ msg), p2,
        outbox ++ [⟨"payment", p.id, "payment.failed"⟩]⟩
    | .ok txn =>
      let p2 : Payment :=
        { p1 with status := "succeeded", providerTransactionID := txn }
      ⟨.ok p2, p2, outbox ++ [⟨"payment", p.id, "payment.succeeded"⟩]⟩

/-- A pending payment row. -/
def pendingPayment : Payment :=
  { id := "pay-1", orderID := "ord-1", userID := "u1",
    amountCurrency := "USD", amountValue := 1000, status := "pending",
    method := "card", providerTransactionID := "", errorMessage := "" }

/-- C6 counterexample: on a pending payment whose provider invocation is
declined, `ConfirmPayment` does store the failure and insert the
`payment.failed` outbox row — but it also returns an error wrapping the
provider failure to its caller, contradicting the claim that the recorded
business outcome is returned rather than an error. -/
theorem confirm_payment_C6_counterexample :
    pendingPayment.status = "pending" ∧
    (confirmPayment pendingPayment []
        (.error "payment declined by provider")).returned =
      .error "payment processing failed: payment declined by provider" ∧
    (confirmPayment pendingPayment []
        (.error "payment declined by provider")).stored.status = "failed" ∧
    (confirmPayment pendingPayment []
        (.error "payment declined by provider")).stored.errorMessage =
      "payment declined by provider" ∧
    (confirmPayment pendingPayment []
        (.error "payment declined by provider")).outbox =
      [⟨"payment", "pay-1", "payment.failed"⟩] :=
  ⟨rfl, rfl, rfl, rfl, rfl⟩

/-- C6 amended: on a pending payment whose provider invocation fails, the
payment row transitions to `failed` with the error text stored and a
`payment.failed` outbox row is inserted — but `ConfirmPayment` re-raises
the failure to its caller as an error wrapping the provider error, rather
than returning the recorded business outcome; a non-pending payment is
returned unchanged with no side effect. -/
theorem confirm_payment_C6 (p : Payment) (outbox : List PaymentEvent)
    (msg : String) (hp : p.status = "pending") :
    confirmPayment p outbox (.error msg) =
      ⟨.error ("payment processing failed: " ++ msg),
        { p with status := "failed", errorMessage := msg },
        outbox ++ [⟨"payment", p.id, "payment.failed"⟩]⟩ ∧
    (∀ q r, q.status ≠ "pending" →
      confirmPayment q outbox r = ⟨.ok q, q, outbox⟩) := by
  constructor
  · simp only [confirmPayment, hp]
    norm_num
  · intro q r hq
    simp only [confirmPayment, if_pos hq]

/-- C6 witness: the concrete pending payment with a declined provider call
lands on the amended behaviour. -/
theorem confirm_payment_C6_witness :
    pendingPayment.status = "pending" ∧
    confirmPayment pendingPayment [] (.error "payment declined by provider") =
      ⟨.error "payment processing failed: payment declined by provider",
        { pendingPayment with status := "failed", errorMessage := "payment declined by provider" },
        [⟨"payment", "pay-1", "payment.failed"⟩]⟩ :=
  ⟨rfl,
    (confirm_payment_C6 pendingPayment [] "payment declined by provider"
      rfl).1⟩

end Coldy
